import Mathlib

/-!
Shallow embedding of the sitewatch monitoring engine and proofs about it.

Conventions of the embedding:
* Go `float64` values are modelled as rationals (`ℚ`).  All claims settled
  here only exercise float arithmetic at inputs where `float64` arithmetic
  is exact (small integers, division by small counts, scaling by 100), so
  the rational model agrees with the source's float behaviour there.
* Go `time.Time` and `time.Duration` are modelled as integers (nanoseconds);
  `time.Since(t)` at instant `now` is `now - t`.
* Go maps `map[string]T` are modelled as functions `String → Option T`.
* Mutation is modelled by explicit state passing: a Go method that mutates
  its receiver becomes a Lean function returning the new state.
* Locks and goroutines are erased: the source guards each structure with a
  lock, so the visible behaviour is the sequential one modelled here.
-/

namespace Sitewatch

/-- Model of Go `math.Round`: rounds to the nearest integer, halves away
from zero (from `roundToDecimalPlaces` in the stats package). -/
def mathRound (x : ℚ) : ℚ :=
  if x < 0 then -((⌊-x + 1/2⌋ : ℤ) : ℚ) else ((⌊x + 1/2⌋ : ℤ) : ℚ)

/-- `roundToDecimalPlaces` from the stats package:
`math.Round(value*multiplier) / multiplier` with `multiplier = 10^places`. -/
def roundToDecimalPlaces (value : ℚ) (places : ℕ) : ℚ :=
  mathRound (value * 10 ^ places) / 10 ^ places

/-- Model of Go `math.MaxFloat64` (its exact value). -/
def maxFloat64 : ℚ := 2 ^ 1024 - 2 ^ 971

/-- `models.SLA`: a service-level-agreement target. -/
structure SLA where
  Uptime : ℚ
  MaxLatency : Option Int
  Restoration : Int
deriving DecidableEq

/-- `models.SLAConfig`: SLA configuration of a site. -/
structure SLAConfig where
  Primary : SLA
  Secondary : SLA
  Combined : SLA
deriving DecidableEq

/-- `models.Site`: a monitoring target. -/
structure Site where
  ID : String
  Name : String
  Location : String
  PrimaryIP : String
  SecondaryIP : String
  PrimaryProvider : String
  SecondaryProvider : String
  Interval : Int
  Enabled : Bool
  SLA : SLAConfig
deriving DecidableEq

/-- `Site.IsDualLine`: true if the site has both primary and secondary IP
configured (`s.SecondaryIP != ""`). -/
def Site.IsDualLine (s : Site) : Bool :=
  s.SecondaryIP != ""

/-- `models.SiteStatus`: the live status entry of one site. -/
structure SiteStatus where
  SiteID : String
  PrimaryOnline : Bool
  SecondaryOnline : Bool
  BothOnline : Bool
  PrimaryLatency : Option ℚ
  SecondaryLatency : Option ℚ
  LastCheck : Int
  PrimaryError : String
  SecondaryError : String
deriving DecidableEq

/-- `models.PingLog`: a durable log entry for one ping check. -/
structure PingLog where
  ID : Int
  Timestamp : Int
  SiteID : String
  SiteName : String
  Target : String
  IP : String
  Success : Bool
  Latency : Option ℚ
  Error : String
  PacketsSent : Int
  PacketsRecv : Int
  PacketsDuplicates : Int
  PacketLoss : Option ℚ
  MinLatency : Option ℚ
  MaxLatency : Option ℚ
  Jitter : Option ℚ
deriving DecidableEq

/-- `models.PingResult`: the transient outcome of one probe attempt. -/
structure PingResult where
  SiteID : String
  IP : String
  LineType : String
  Success : Bool
  Latency : Option ℚ
  Error : String
  Timestamp : Int
  PacketsSent : Int
  PacketsRecv : Int
  PacketsDuplicates : Int
  PacketLoss : Option ℚ
  MinLatency : Option ℚ
  MaxLatency : Option ℚ
  Jitter : Option ℚ
deriving DecidableEq

/-! ### In-memory ring-buffer log store (`internal/storage/memory.go`) -/

/-- `storage.MemoryStorage`: in-memory storage with ring-buffer behaviour. -/
structure MemoryStorage where
  logs : List PingLog
  maxLogs : Int
  logCounter : Int
deriving DecidableEq

/-- `storage.NewMemoryStorage`: a fresh store; a non-positive capacity
falls back to the default of 1000. -/
def NewMemoryStorage (maxLogs : Int) : MemoryStorage :=
  let m := if maxLogs ≤ 0 then 1000 else maxLogs
  { logs := [], maxLogs := m, logCounter := 0 }

/-- `MemoryStorage.AddPingLog`: assigns the next counter value as the ID and
appends; once `len(m.logs) >= m.maxLogs` the oldest entry (`m.logs[1:]`) is
evicted first.  The Go method always returns a nil error. -/
def MemoryStorage.AddPingLog (m : MemoryStorage) (log : PingLog) : MemoryStorage :=
  let c := m.logCounter + 1
  let log' := { log with ID := c }
  if (m.logs.length : Int) ≥ m.maxLogs then
    { m with logs := m.logs.tail ++ [log'], logCounter := c }
  else
    { m with logs := m.logs ++ [log'], logCounter := c }

/-- Folding a whole list of entries into the store, one `AddPingLog` each. -/
def MemoryStorage.appendAll (m : MemoryStorage) (es : List PingLog) : MemoryStorage :=
  es.foldl MemoryStorage.AddPingLog m

/-- The filter applied by `MemoryStorage.GetFilteredLogs` to each entry:
an empty `siteID` means no site filter, a `none` success filter means no
success filter, and both must hold together. -/
def matchesFilters (siteID : String) (success : Option Bool) (log : PingLog) : Bool :=
  (siteID == "" || log.SiteID == siteID) &&
    (match success with
     | none => true
     | some b => log.Success == b)

/-- Loop body of `MemoryStorage.GetFilteredLogs`: the Go code walks the
buffer from its end (newest first), skips entries failing either filter,
collects the rest, and breaks once `limit > 0` entries were collected.
`rev` is the part of the reversed buffer not yet visited, `filtered` the
entries collected so far. -/
def gflLoop (siteID : String) (success : Option Bool) (limit : Int) :
    List PingLog → List PingLog → List PingLog
  | [], filtered => filtered
  | log :: rest, filtered =>
    if matchesFilters siteID success log then
      let filtered' := filtered ++ [log]
      if limit > 0 ∧ (filtered'.length : Int) ≥ limit then filtered'
      else gflLoop siteID success limit rest filtered'
    else
      gflLoop siteID success limit rest filtered

/-- `MemoryStorage.GetFilteredLogs`: newest-first filtered query with an
optional limit (`limit ≤ 0` is unbounded).  The Go method always returns a
nil error. -/
def MemoryStorage.GetFilteredLogs (m : MemoryStorage) (siteID : String)
    (success : Option Bool) (limit : Int) : List PingLog :=
  gflLoop siteID success limit m.logs.reverse []

/-- `MemoryStorage.GetAllLogs`: a copy of the whole buffer. -/
def MemoryStorage.GetAllLogs (m : MemoryStorage) : List PingLog :=
  m.logs

/-- Entry IDs as `AddPingLog` assigns them: the `n`-th appended entry gets
ID `c + n` when the counter starts at `c`. -/
def assignIDs (c : Int) : List PingLog → List PingLog
  | [] => []
  | e :: es => { e with ID := c + 1 } :: assignIDs (c + 1) es

/-! ### Circuit breaker (`internal/services/ping/circuit_breaker_manager.go`) -/

/-- `ping.CircuitBreakerState`: Closed, Half-Open or Open. -/
inductive CircuitBreakerState where
  | StateClosed
  | StateHalfOpen
  | StateOpen
deriving DecidableEq

/-- `ping.CircuitBreaker`: per-(site, line) failure isolator.  The `name`,
lock and state-change callback of the source are dropped: the callback only
feeds logging and metric gauges. -/
structure CircuitBreaker where
  maxFailures : Int
  resetTimeout : Int
  state : CircuitBreakerState
  failures : Int
  lastFailTime : Int
deriving DecidableEq

/-- `ping.NewCircuitBreaker`: starts Closed with zero failures (Go zero
values for `failures` and `lastFailTime`). -/
def NewCircuitBreaker (maxFailures resetTimeout : Int) : CircuitBreaker :=
  { maxFailures := maxFailures, resetTimeout := resetTimeout,
    state := .StateClosed, failures := 0, lastFailTime := 0 }

/-- `CircuitBreaker.canExecute` evaluated at instant `now`: Closed and
Half-Open allow execution; Open allows it only when
`time.Since(lastFailTime) > resetTimeout`, in which case the breaker
transitions to Half-Open (the source's lock upgrade and double check
collapse to this in the sequential model).  Returns the decision together
with the possibly-updated breaker. -/
def canExecute (cb : CircuitBreaker) (now : Int) : Bool × CircuitBreaker :=
  match cb.state with
  | .StateClosed => (true, cb)
  | .StateOpen =>
    if now - cb.lastFailTime > cb.resetTimeout then
      (true, { cb with state := .StateHalfOpen })
    else
      (false, cb)
  | .StateHalfOpen => (true, cb)

/-- `CircuitBreaker.recordFailure` at instant `now`: increments the
consecutive-failure count, stamps the failure time, opens the circuit from
Closed once the count reaches `maxFailures`, and reopens it from
Half-Open. -/
def recordFailure (cb : CircuitBreaker) (now : Int) : CircuitBreaker :=
  let cb := { cb with failures := cb.failures + 1, lastFailTime := now }
  match cb.state with
  | .StateClosed =>
    if cb.failures ≥ cb.maxFailures then { cb with state := .StateOpen } else cb
  | .StateHalfOpen => { cb with state := .StateOpen }
  | .StateOpen => cb

/-- `CircuitBreaker.recordSuccess`: Half-Open closes the circuit and resets
the count; Closed resets the count (the source only writes when it is
non-zero, which yields the same state). -/
def recordSuccess (cb : CircuitBreaker) : CircuitBreaker :=
  match cb.state with
  | .StateHalfOpen => { cb with state := .StateClosed, failures := 0 }
  | .StateClosed => { cb with failures := 0 }
  | .StateOpen => cb

/-- Outcome of `CircuitBreaker.Call`: either the distinct
`*CircuitBreakerError` ("circuit open"), or the supplied function's own
outcome passed through. -/
inductive CallOutcome where
  | circuitOpen
  | probe (ok : Bool)
deriving DecidableEq

/-- `CircuitBreaker.Call` at instant `now`, with the supplied probe
function abstracted to its outcome `fnOk`: refuses without invoking the
function when `canExecute` denies, otherwise invokes it and records the
outcome.  Returns (outcome, new breaker, whether the function was
invoked). -/
def Call (cb : CircuitBreaker) (now : Int) (fnOk : Bool) :
    CallOutcome × CircuitBreaker × Bool :=
  match canExecute cb now with
  | (false, cb') => (.circuitOpen, cb', false)
  | (true, cb') =>
    if fnOk then (.probe true, recordSuccess cb', true)
    else (.probe false, recordFailure cb' now, true)

/-- Iterate `n` calls that all fail, each at instant `now`. -/
def failCalls (cb : CircuitBreaker) (now : Int) : ℕ → CircuitBreaker
  | 0 => cb
  | n + 1 => (Call (failCalls cb now n) now false).2.1

/-! ### Result pipeline (`internal/services/ping/ping.go`) -/

/-- First site in the list with the given ID (the lookup loops in
`HandlePingResult` and `UpdateSiteStatus`). -/
def findSite (sites : List Site) (id : String) : Option Site :=
  sites.find? (fun s => s.ID == id)

/-- Site-name lookup in `HandlePingResult`: the name of the first site with
a matching ID, or the empty string. -/
def siteNameFor (sites : List Site) (id : String) : String :=
  match findSite sites id with
  | some s => s.Name
  | none => ""

/-- The `models.PingLog` literal that `AddPingLogToStorage` builds from a
result and the site name. -/
def buildPingLog (result : PingResult) (siteName : String) : PingLog :=
  { ID := 0, Timestamp := result.Timestamp, SiteID := result.SiteID,
    SiteName := siteName, Target := result.LineType, IP := result.IP,
    Success := result.Success, Latency := result.Latency,
    Error := result.Error, PacketsSent := result.PacketsSent,
    PacketsRecv := result.PacketsRecv,
    PacketsDuplicates := result.PacketsDuplicates,
    PacketLoss := result.PacketLoss, MinLatency := result.MinLatency,
    MaxLatency := result.MaxLatency, Jitter := result.Jitter }

/-- `ping.AddPingLogToStorage`, generic over the storage backend `σ` with
append operation `add`: on error the message is logged and the old storage
state is kept — processing continues either way. -/
def AddPingLogToStorage {σ : Type} (add : σ → PingLog → Except String σ)
    (storage : σ) (result : PingResult) (siteName : String) : σ :=
  match add storage (buildPingLog result siteName) with
  | .ok storage' => storage'
  | .error _ => storage

/-- Line-specific part of `ping.UpdateSiteStatus`: the switch on
`result.LineType` updating one line's online flag, latency and error. -/
def applyLineUpdate (st : SiteStatus) (result : PingResult) : SiteStatus :=
  match result.LineType with
  | "primary" =>
    let st := { st with PrimaryOnline := result.Success }
    if result.Success then { st with PrimaryLatency := result.Latency, PrimaryError := "" }
    else { st with PrimaryLatency := none, PrimaryError := result.Error }
  | "secondary" =>
    let st := { st with SecondaryOnline := result.Success }
    if result.Success then { st with SecondaryLatency := result.Latency, SecondaryError := "" }
    else { st with SecondaryLatency := none, SecondaryError := result.Error }
  | _ => st

/-- Combined-flag part of `ping.UpdateSiteStatus`: recomputed only when the
site is found in the site list — both lines for a dual-line site, the
primary line alone otherwise. -/
def recomputeBothOnline (sites : List Site) (st : SiteStatus) (siteID : String) : SiteStatus :=
  match findSite sites siteID with
  | some site =>
    if site.IsDualLine then { st with BothOnline := st.PrimaryOnline && st.SecondaryOnline }
    else { st with BothOnline := st.PrimaryOnline }
  | none => st

/-- `ping.UpdateSiteStatus`: looks up the site's live-status entry (returns
with no change when absent), applies the line update, recomputes the
combined flag, stamps the last-check time, and stores the entry back.  The
final Prometheus gauge write is an external side effect, not modelled. -/
def UpdateSiteStatus (sites : List Site) (status : String → Option SiteStatus)
    (result : PingResult) : String → Option SiteStatus :=
  match status result.SiteID with
  | none => status
  | some st =>
    let st := applyLineUpdate st result
    let st := recomputeBothOnline sites st result.SiteID
    let st := { st with LastCheck := result.Timestamp }
    fun id => if id = result.SiteID then some st else status id

/-- The pipeline-visible application state: total-checks counter, storage
backend and live-status map (`config.AppState`, restricted to the fields
`HandlePingResult` touches; metric sinks are external). -/
structure PipelineState (σ : Type) where
  TotalChecks : Int
  Storage : σ
  SiteStatus : String → Option SiteStatus

/-- `ping.HandlePingResult`: increments the total-checks counter, updates
the external metric sinks (not modelled), appends a log entry to storage
(errors logged, never propagated), and updates the live status map. -/
def HandlePingResult {σ : Type} (add : σ → PingLog → Except String σ)
    (sites : List Site) (st : PipelineState σ) (result : PingResult) :
    PipelineState σ :=
  { TotalChecks := st.TotalChecks + 1,
    Storage := AddPingLogToStorage add st.Storage result (siteNameFor sites result.SiteID),
    SiteStatus := UpdateSiteStatus sites st.SiteStatus result }

/-! ### Statistics engine (`internal/services/stats`) -/

/-- `stats.validateLogData`: an empty site ID or a negative latency makes
the entry invalid (`some` error message); a successful entry without
latency only triggers a warning log and is still valid. -/
def validateLogData (log : PingLog) : Option String :=
  if log.SiteID = "" then some "empty site ID"
  else if (match log.Latency with | some l => decide (l < 0) | none => false) then
    some "negative latency"
  else none

/-- `stats.TimeframeStats`: the running aggregate for one timeframe. -/
structure TimeframeStats where
  TotalChecks : Int
  SuccessChecks : Int
  PrimaryTotal : Int
  PrimarySuccess : Int
  SecondaryTotal : Int
  SecondarySuccess : Int
  Latencies : List ℚ
  MinLatency : ℚ
  MaxLatency : ℚ
  SumLatency : ℚ
  JitterValues : List ℚ
  PrimaryMinLatencies : List ℚ
  PrimaryMaxLatencies : List ℚ
  PrimaryJitterValues : List ℚ
  SecondaryMinLatencies : List ℚ
  SecondaryMaxLatencies : List ℚ
  SecondaryJitterValues : List ℚ
  TotalPacketsSent : Int
  TotalPacketsReceived : Int
  TotalPacketsDuplicates : Int
  PacketLossValues : List ℚ
  PrimaryPacketsSent : Int
  PrimaryPacketsReceived : Int
  PrimaryPacketsDuplicates : Int
  PrimaryPacketLossValues : List ℚ
  SecondaryPacketsSent : Int
  SecondaryPacketsReceived : Int
  SecondaryPacketsDuplicates : Int
  SecondaryPacketLossValues : List ℚ
deriving DecidableEq

/-- `stats.NewTimeframeStats`: zero-valued except `MinLatency`, which
starts at `math.MaxFloat64`. -/
def NewTimeframeStats : TimeframeStats :=
  { TotalChecks := 0, SuccessChecks := 0, PrimaryTotal := 0,
    PrimarySuccess := 0, SecondaryTotal := 0, SecondarySuccess := 0,
    Latencies := [], MinLatency := maxFloat64, MaxLatency := 0,
    SumLatency := 0, JitterValues := [], PrimaryMinLatencies := [],
    PrimaryMaxLatencies := [], PrimaryJitterValues := [],
    SecondaryMinLatencies := [], SecondaryMaxLatencies := [],
    SecondaryJitterValues := [], TotalPacketsSent := 0,
    TotalPacketsReceived := 0, TotalPacketsDuplicates := 0,
    PacketLossValues := [], PrimaryPacketsSent := 0,
    PrimaryPacketsReceived := 0, PrimaryPacketsDuplicates := 0,
    PrimaryPacketLossValues := [], SecondaryPacketsSent := 0,
    SecondaryPacketsReceived := 0, SecondaryPacketsDuplicates := 0,
    SecondaryPacketLossValues := [] }

/-- Success-only latency part of `TimeframeStats.AddLog`. -/
def addSuccessLatency (ts : TimeframeStats) (log : PingLog) : TimeframeStats :=
  if log.Success then
    let ts := { ts with SuccessChecks := ts.SuccessChecks + 1 }
    let ts :=
      match log.Latency with
      | some latency =>
        let ts := { ts with Latencies := ts.Latencies ++ [latency],
                            SumLatency := ts.SumLatency + latency }
        let ts := if latency < ts.MinLatency then { ts with MinLatency := latency } else ts
        if latency > ts.MaxLatency then { ts with MaxLatency := latency } else ts
      | none => ts
    match log.Jitter with
    | some j => { ts with JitterValues := ts.JitterValues ++ [j] }
    | none => ts
  else ts

/-- Per-provider part of `TimeframeStats.AddLog`. -/
def addProviderStats (ts : TimeframeStats) (log : PingLog) : TimeframeStats :=
  if log.Target = "primary" then
    let ts := { ts with PrimaryTotal := ts.PrimaryTotal + 1,
                        PrimaryPacketsSent := ts.PrimaryPacketsSent + log.PacketsSent,
                        PrimaryPacketsReceived := ts.PrimaryPacketsReceived + log.PacketsRecv,
                        PrimaryPacketsDuplicates := ts.PrimaryPacketsDuplicates + log.PacketsDuplicates }
    let ts :=
      match log.PacketLoss with
      | some pl => { ts with PrimaryPacketLossValues := ts.PrimaryPacketLossValues ++ [pl] }
      | none => ts
    if log.Success then
      let ts := { ts with PrimarySuccess := ts.PrimarySuccess + 1 }
      let ts :=
        match log.MinLatency with
        | some v => { ts with PrimaryMinLatencies := ts.PrimaryMinLatencies ++ [v] }
        | none => ts
      let ts :=
        match log.MaxLatency with
        | some v => { ts with PrimaryMaxLatencies := ts.PrimaryMaxLatencies ++ [v] }
        | none => ts
      match log.Jitter with
      | some v => { ts with PrimaryJitterValues := ts.PrimaryJitterValues ++ [v] }
      | none => ts
    else ts
  else if log.Target = "secondary" then
    let ts := { ts with SecondaryTotal := ts.SecondaryTotal + 1,
                        SecondaryPacketsSent := ts.SecondaryPacketsSent + log.PacketsSent,
                        SecondaryPacketsReceived := ts.SecondaryPacketsReceived + log.PacketsRecv,
                        SecondaryPacketsDuplicates := ts.SecondaryPacketsDuplicates + log.PacketsDuplicates }
    let ts :=
      match log.PacketLoss with
      | some pl => { ts with SecondaryPacketLossValues := ts.SecondaryPacketLossValues ++ [pl] }
      | none => ts
    if log.Success then
      let ts := { ts with SecondarySuccess := ts.SecondarySuccess + 1 }
      let ts :=
        match log.MinLatency with
        | some v => { ts with SecondaryMinLatencies := ts.SecondaryMinLatencies ++ [v] }
        | none => ts
      let ts :=
        match log.MaxLatency with
        | some v => { ts with SecondaryMaxLatencies := ts.SecondaryMaxLatencies ++ [v] }
        | none => ts
      match log.Jitter with
      | some v => { ts with SecondaryJitterValues := ts.SecondaryJitterValues ++ [v] }
      | none => ts
    else ts
  else ts

/-- `TimeframeStats.AddLog`: folds one log entry into the aggregate. -/
def TimeframeStats.AddLog (ts : TimeframeStats) (log : PingLog) : TimeframeStats :=
  let ts := { ts with TotalChecks := ts.TotalChecks + 1,
                      TotalPacketsSent := ts.TotalPacketsSent + log.PacketsSent,
                      TotalPacketsReceived := ts.TotalPacketsReceived + log.PacketsRecv,
                      TotalPacketsDuplicates := ts.TotalPacketsDuplicates + log.PacketsDuplicates }
  let ts :=
    match log.PacketLoss with
    | some pl => { ts with PacketLossValues := ts.PacketLossValues ++ [pl] }
    | none => ts
  let ts := addSuccessLatency ts log
  addProviderStats ts log

/-- `TimeframeStats.GetUptimePercentage`: 0 when there are no checks,
otherwise `successful/total × 100` rounded to 2 places. -/
def TimeframeStats.GetUptimePercentage (ts : TimeframeStats) : ℚ :=
  if ts.TotalChecks = 0 then 0
  else roundToDecimalPlaces ((ts.SuccessChecks : ℚ) / (ts.TotalChecks : ℚ) * 100) 2

/-- `TimeframeStats.GetMeanLatency`: 0 when there are no latency samples,
otherwise `sum/count` rounded to 2 places. -/
def TimeframeStats.GetMeanLatency (ts : TimeframeStats) : ℚ :=
  if ts.Latencies.length = 0 then 0
  else roundToDecimalPlaces (ts.SumLatency / (ts.Latencies.length : ℚ)) 2

/-- `TimeframeStats.GetProviderMeanLatency`: recomputed from the raw log
list — every successful entry of the site with a latency and the right
target is summed, with no validation step. -/
def TimeframeStats.GetProviderMeanLatency (_ts : TimeframeStats) (provider : String)
    (allLogs : List PingLog) (siteID : String) : ℚ :=
  let samples := allLogs.filter fun log =>
    log.SiteID == siteID && log.Success && log.Latency.isSome && log.Target == provider
  let sum : ℚ := samples.foldl (fun acc log => acc + log.Latency.getD 0) 0
  let count := samples.length
  if count = 0 then 0
  else roundToDecimalPlaces (sum / (count : ℚ)) 2

/-- Per-site analysis loop of `stats.CalculateSiteStatistics` for one
timeframe: entries of other sites are skipped, entries failing
`validateLogData` are skipped with a warning, entries outside the
timeframe cutoff (`none` for the all-time frame, `some c` for a frame
admitting `log.Timestamp > c`) are skipped, and the rest are folded with
`AddLog`. -/
def statsForTimeframe (siteID : String) (cutoff : Option Int)
    (allLogs : List PingLog) : TimeframeStats :=
  allLogs.foldl
    (fun ts log =>
      if log.SiteID ≠ siteID then ts
      else if (validateLogData log).isSome then ts
      else
        match cutoff with
        | none => ts.AddLog log
        | some c => if log.Timestamp > c then ts.AddLog log else ts)
    NewTimeframeStats

/-! ### Event derivation (`stats.GetRecentEvents`) -/

/-- `models.RecentEvent`: an up/down transition event. -/
structure RecentEvent where
  Timestamp : Int
  Status : String
  Message : String
  SiteID : String
  Target : String
  IsOutage : Bool
deriving DecidableEq

/-- The event built by `GetRecentEvents` for a status-changing entry; the
entry carries the new status.  Go's `strings.Title` on a single lowercase
word is modelled by `String.capitalize`. -/
def mkRecentEvent (log : PingLog) : RecentEvent :=
  if log.Success then
    { Timestamp := log.Timestamp, Status := "restored",
      Message := log.Target.capitalize ++ " connection restored",
      SiteID := log.SiteID, Target := log.Target, IsOutage := false }
  else
    { Timestamp := log.Timestamp, Status := "failed",
      Message := log.Target.capitalize ++ " connection lost",
      SiteID := log.SiteID, Target := log.Target, IsOutage := true }

/-- Scan loop of `stats.GetRecentEvents`: walks the logs chronologically,
skips entries of other sites and entries failing `validateLogData`, emits
an event whenever a line's success flag differs from that line's last
recorded value, and records the value per line in `lastStatus`. -/
def eventsLoop (siteID : String) : List PingLog → (String → Option Bool) →
    List RecentEvent → List RecentEvent
  | [], _, events => events
  | log :: rest, lastStatus, events =>
    if log.SiteID ≠ siteID then eventsLoop siteID rest lastStatus events
    else if (validateLogData log).isSome then eventsLoop siteID rest lastStatus events
    else
      let events :=
        match lastStatus log.Target with
        | some prev => if prev ≠ log.Success then events ++ [mkRecentEvent log] else events
        | none => events
      eventsLoop siteID rest
        (fun t => if t = log.Target then some log.Success else lastStatus t) events

/-- `stats.GetRecentEvents`: chronological transition scan, reversed to
newest-first, truncated to `limit` when more events were found. -/
def GetRecentEvents (allLogs : List PingLog) (siteID : String) (limit : Int) :
    List RecentEvent :=
  if allLogs.isEmpty then []
  else
    let events := eventsLoop siteID allLogs (fun _ => none) []
    let events := events.reverse
    if (events.length : Int) > limit then events.take limit.toNat else events

/-- Modelled from the spec's words (claim C9), for comparison with
`GetRecentEvents`: the same per-line transition scan but over every entry
of the site — an event exactly at those entries whose success flag differs
from the immediately preceding entry for the same line, with no
validation step. -/
def specEventsLoop (siteID : String) : List PingLog → (String → Option Bool) →
    List RecentEvent → List RecentEvent
  | [], _, events => events
  | log :: rest, lastStatus, events =>
    if log.SiteID ≠ siteID then specEventsLoop siteID rest lastStatus events
    else
      let events :=
        match lastStatus log.Target with
        | some prev => if prev ≠ log.Success then events ++ [mkRecentEvent log] else events
        | none => events
      specEventsLoop siteID rest
        (fun t => if t = log.Target then some log.Success else lastStatus t) events

/-- Modelled from the spec's words (claim C9): event derivation exactly as
the claim states it, newest-first and truncated to the limit. -/
def specRecentEvents (allLogs : List PingLog) (siteID : String) (limit : Int) :
    List RecentEvent :=
  if allLogs.isEmpty then []
  else
    let events := specEventsLoop siteID allLogs (fun _ => none) []
    let events := events.reverse
    if (events.length : Int) > limit then events.take limit.toNat else events

/-- Clean recursive form of the per-line transition scan, used to state the
amended claim C9: an event at each entry whose success flag differs from
the last recorded value for its line, nothing for a line's first
observation. -/
def transitionEvents (lastStatus : String → Option Bool) :
    List PingLog → List RecentEvent
  | [] => []
  | log :: rest =>
    (match lastStatus log.Target with
     | some prev => if prev ≠ log.Success then [mkRecentEvent log] else []
     | none => []) ++
    transitionEvents (fun t => if t = log.Target then some log.Success else lastStatus t) rest

/-- An entry that `GetRecentEvents` actually processes for `siteID`: right
site and valid data. -/
def validFor (siteID : String) (log : PingLog) : Bool :=
  log.SiteID == siteID && (validateLogData log).isNone

/-! ### Concrete fixtures used in scenario conjuncts and witnesses -/

/-- A baseline successful primary-line log entry for site `s1`. -/
def blankLog : PingLog :=
  { ID := 0, Timestamp := 0, SiteID := "s1", SiteName := "Site One",
    Target := "primary", IP := "10.0.0.1", Success := true, Latency := none,
    Error := "", PacketsSent := 3, PacketsRecv := 3, PacketsDuplicates := 0,
    PacketLoss := none, MinLatency := none, MaxLatency := none, Jitter := none }

/-- Probe number `n` of the ring-buffer scenario: identified by its
timestamp and packet counter. -/
def probeEntry (n : ℕ) : PingLog :=
  { blankLog with Timestamp := (n : Int), PacketsSent := (n : Int) }

/-- The 150 probe results of the ring-buffer scenario, probes 1 to 150. -/
def scenarioEntries : List PingLog :=
  (List.range' 1 150).map probeEntry

/-- What must remain after the scenario: probes 51 to 150 in order, with
the IDs the store assigned them. -/
def scenarioExpected : List PingLog :=
  (List.range' 51 100).map fun n => { probeEntry n with ID := (n : Int) }

/-- A successful entry carrying a negative latency: invalid data. -/
def negLatLog : PingLog :=
  { blankLog with Timestamp := 2, Latency := some (-5) }

/-- Counterexample history for claim C9: a success, then an invalid
failure (negative latency), then a valid failure, all on the primary line
of `s1`. -/
def cexLogs : List PingLog :=
  [{ blankLog with Timestamp := 1 },
   { blankLog with Timestamp := 2, Success := false, Latency := some (-1) },
   { blankLog with Timestamp := 3, Success := false }]

/-- A two-site fixture for witness instantiations: `s1` is dual-line,
`s2` single-line. -/
def demoSLA : SLAConfig :=
  { Primary := { Uptime := 99, MaxLatency := none, Restoration := 0 },
    Secondary := { Uptime := 99, MaxLatency := none, Restoration := 0 },
    Combined := { Uptime := 99, MaxLatency := none, Restoration := 0 } }

/-- Dual-line demo site `s1`. -/
def demoSite1 : Site :=
  { ID := "s1", Name := "Site One", Location := "HQ", PrimaryIP := "10.0.0.1",
    SecondaryIP := "10.0.0.2", PrimaryProvider := "A", SecondaryProvider := "B",
    Interval := 30, Enabled := true, SLA := demoSLA }

/-- Single-line demo site `s2`. -/
def demoSite2 : Site :=
  { ID := "s2", Name := "Site Two", Location := "Branch", PrimaryIP := "10.0.1.1",
    SecondaryIP := "", PrimaryProvider := "A", SecondaryProvider := "",
    Interval := 30, Enabled := true, SLA := demoSLA }

/-- Demo status entry for a site. -/
def demoStatus (id : String) : SiteStatus :=
  { SiteID := id, PrimaryOnline := false, SecondaryOnline := true,
    BothOnline := false, PrimaryLatency := none,
    SecondaryLatency := some 12, LastCheck := 0,
    PrimaryError := "", SecondaryError := "" }

/-- Demo live-status map holding entries for `s1` and `s2`. -/
def demoStatusMap : String → Option SiteStatus :=
  fun id => if id = "s1" ∨ id = "s2" then some (demoStatus id) else none

/-- A successful primary-line probe result for `s1`. -/
def demoResult : PingResult :=
  { SiteID := "s1", IP := "10.0.0.1", LineType := "primary", Success := true,
    Latency := some 17, Error := "", Timestamp := 42, PacketsSent := 3,
    PacketsRecv := 3, PacketsDuplicates := 0, PacketLoss := some 0,
    MinLatency := some 15, MaxLatency := some 19, Jitter := some 1 }

/-- A tripped breaker (default policy 3/60) whose last failure was at
instant 0. -/
def demoOpenCB : CircuitBreaker :=
  { maxFailures := 3, resetTimeout := 60, state := .StateOpen,
    failures := 3, lastFailTime := 0 }

/-- A storage backend whose append always fails. -/
def failingAdd : MemoryStorage → PingLog → Except String MemoryStorage :=
  fun _ _ => .error "disk full"

/-- A pipeline state over the in-memory backend for witness runs. -/
def demoPipeline : PipelineState MemoryStorage :=
  { TotalChecks := 7, Storage := NewMemoryStorage 10, SiteStatus := demoStatusMap }

/-! ### Lemmas about the in-memory store -/

theorem matchesFilters_trivial (log : PingLog) : matchesFilters "" none log = true := by
  simp [matchesFilters]

theorem gflLoop_nonpos (siteID : String) (success : Option Bool) (limit : Int)
    (hlim : limit ≤ 0) (rev : List PingLog) :
    ∀ acc, gflLoop siteID success limit rev acc
      = acc ++ rev.filter (matchesFilters siteID success) := by
  induction rev with
  | nil => intro acc; simp [gflLoop]
  | cons log rest ih =>
    intro acc
    by_cases hm : matchesFilters siteID success log = true
    · have hnot : ¬(limit > 0 ∧ ((acc ++ [log]).length : Int) ≥ limit) := by
        rintro ⟨h1, -⟩; omega
      simp only [gflLoop, hm, if_true, if_neg hnot, ih]
      simp [List.filter_cons, hm]
    · simp only [gflLoop, hm, if_false, ih]
      simp [List.filter_cons, hm]

theorem gflLoop_pos (siteID : String) (success : Option Bool) (limit : Int)
    (hlim : 0 < limit) (rev : List PingLog) :
    ∀ acc, (acc.length : Int) < limit →
      gflLoop siteID success limit rev acc
        = acc ++ (rev.filter (matchesFilters siteID success)).take (limit - acc.length).toNat := by
  induction rev with
  | nil => intro acc _; simp [gflLoop]
  | cons log rest ih =>
    intro acc hacc
    by_cases hm : matchesFilters siteID success log = true
    · by_cases hstop : limit > 0 ∧ (((acc ++ [log]).length : Int) ≥ limit)
      · have hone : (limit - acc.length).toNat = 1 := by
          rcases hstop with ⟨-, h2⟩
          simp only [List.length_append, List.length_cons, List.length_nil] at h2
          omega
        simp only [gflLoop, hm, if_true, if_pos hstop]
        simp [List.filter_cons, hm, hone]
      · have hlt : ((acc ++ [log]).length : Int) < limit := by
          simp only [List.length_append, List.length_cons, List.length_nil]
          simp only [List.length_append, List.length_cons, List.length_nil,
            not_and, not_le] at hstop
          exact hstop hlim
        have := ih (acc ++ [log]) hlt
        simp only [gflLoop, hm, if_true, if_neg hstop, this]
        have hnat : (limit - ((acc ++ [log]).length : Int)).toNat
            = (limit - acc.length).toNat - 1 := by
          simp only [List.length_append, List.length_cons, List.length_nil]
          omega
        have htk : (limit - acc.length).toNat = ((limit - acc.length).toNat - 1) + 1 := by
          omega
        conv_rhs => rw [htk]
        simp [List.filter_cons, hm, hnat, List.take_succ_cons]
        congr 1
        omega
    · simp only [gflLoop, hm, if_false, ih acc hacc]
      simp [List.filter_cons, hm]

/-- Closed form of `MemoryStorage.GetFilteredLogs`: the newest-first
filtered buffer, truncated to `limit` when positive. -/
theorem getFilteredLogs_eq (m : MemoryStorage) (siteID : String)
    (success : Option Bool) (limit : Int) :
    m.GetFilteredLogs siteID success limit
      = if 0 < limit then
          (m.logs.reverse.filter (matchesFilters siteID success)).take limit.toNat
        else
          m.logs.reverse.filter (matchesFilters siteID success) := by
  by_cases hlim : 0 < limit
  · have := gflLoop_pos siteID success limit hlim m.logs.reverse [] (by simpa using hlim)
    simpa [MemoryStorage.GetFilteredLogs, hlim] using this
  · have := gflLoop_nonpos siteID success limit (by omega) m.logs.reverse []
    simpa [MemoryStorage.GetFilteredLogs, hlim] using this

theorem addPingLog_logs (m : MemoryStorage) (e : PingLog) :
    ∃ pre, (m.AddPingLog e).logs = pre ++ [{ e with ID := m.logCounter + 1 }] := by
  unfold MemoryStorage.AddPingLog
  by_cases h : (m.logs.length : Int) ≥ m.maxLogs
  · exact ⟨m.logs.tail, by simp [h]⟩
  · exact ⟨m.logs, by simp [h]⟩

theorem assignIDs_length (c : Int) (xs : List PingLog) :
    (assignIDs c xs).length = xs.length := by
  induction xs generalizing c with
  | nil => rfl
  | cons x xs ih => simp [assignIDs, ih]

theorem assignIDs_concat (c : Int) (xs : List PingLog) (e : PingLog) :
    assignIDs c (xs ++ [e])
      = assignIDs c xs ++ [{ e with ID := c + xs.length + 1 }] := by
  induction xs generalizing c with
  | nil => simp [assignIDs]
  | cons x xs ih =>
    show { x with ID := c + 1 } :: assignIDs (c + 1) (xs ++ [e])
        = ({ x with ID := c + 1 } :: assignIDs (c + 1) xs)
            ++ [{ e with ID := c + (x :: xs).length + 1 }]
    rw [ih]
    simp only [List.cons_append, List.length_cons]
    congr 3
    push_cast
    ring

theorem addPingLog_of_full (m : MemoryStorage) (e : PingLog)
    (h : (m.logs.length : Int) ≥ m.maxLogs) :
    m.AddPingLog e
      = { logs := m.logs.tail ++ [{ e with ID := m.logCounter + 1 }],
          maxLogs := m.maxLogs, logCounter := m.logCounter + 1 } := by
  unfold MemoryStorage.AddPingLog
  rw [if_pos h]

theorem addPingLog_of_not_full (m : MemoryStorage) (e : PingLog)
    (h : ¬((m.logs.length : Int) ≥ m.maxLogs)) :
    m.AddPingLog e
      = { logs := m.logs ++ [{ e with ID := m.logCounter + 1 }],
          maxLogs := m.maxLogs, logCounter := m.logCounter + 1 } := by
  unfold MemoryStorage.AddPingLog
  rw [if_neg h]

/-- Closed form of a fresh capacity-`C` store after appending `es`: the
entries carry IDs `1..n` and only the newest `C` survive. -/
theorem appendAll_closed_form (C : Int) (hC : 1 ≤ C) (es : List PingLog) :
    ((NewMemoryStorage C).appendAll es).maxLogs = C ∧
    ((NewMemoryStorage C).appendAll es).logCounter = es.length ∧
    ((NewMemoryStorage C).appendAll es).logs
      = (assignIDs 0 es).drop (es.length - C.toNat) := by
  induction es using List.reverseRecOn with
  | nil =>
    refine ⟨?_, ?_, ?_⟩ <;>
      simp [MemoryStorage.appendAll, NewMemoryStorage, show ¬C ≤ 0 by omega, assignIDs]
  | append_singleton es e ih =>
    obtain ⟨ihmax, ihcnt, ihlogs⟩ := ih
    have happ : (NewMemoryStorage C).appendAll (es ++ [e])
        = ((NewMemoryStorage C).appendAll es).AddPingLog e := by
      unfold MemoryStorage.appendAll
      exact List.foldl_concat _ _ e es
    have halen : (assignIDs 0 es).length = es.length := assignIDs_length 0 es
    have hlen : ((NewMemoryStorage C).appendAll es).logs.length
        = es.length - (es.length - C.toNat) := by
      rw [ihlogs, List.length_drop, halen]
    have hCnat : (C.toNat : Int) = C := Int.toNat_of_nonneg (by omega)
    by_cases hfull : (es.length : Int) ≥ C
    · have hcond : ((((NewMemoryStorage C).appendAll es).logs.length : Int)
          ≥ ((NewMemoryStorage C).appendAll es).maxLogs) := by
        rw [ihmax, hlen]
        omega
      rw [happ, addPingLog_of_full _ _ hcond]
      refine ⟨ihmax, ?_, ?_⟩
      · simp only [ihcnt, List.length_append, List.length_cons, List.length_nil]
        push_cast
        omega
      · simp only [ihlogs, ihcnt]
        rw [List.tail_drop, assignIDs_concat]
        have hsplit : (es ++ [e]).length - C.toNat = (es.length - C.toNat) + 1 := by
          simp only [List.length_append, List.length_cons, List.length_nil]
          omega
        rw [hsplit, List.drop_append_eq_append_drop]
        have h2 : es.length - C.toNat + 1 - (assignIDs 0 es).length = 0 := by
          rw [halen]
          omega
        rw [h2, List.drop_zero]
        norm_num
    · have hcond : ¬((((NewMemoryStorage C).appendAll es).logs.length : Int)
          ≥ ((NewMemoryStorage C).appendAll es).maxLogs) := by
        rw [ihmax, hlen]
        omega
      rw [happ, addPingLog_of_not_full _ _ hcond]
      refine ⟨ihmax, ?_, ?_⟩
      · simp only [ihcnt, List.length_append, List.length_cons, List.length_nil]
        push_cast
        omega
      · simp only [ihlogs, ihcnt]
        rw [assignIDs_concat]
        have h0 : es.length - C.toNat = 0 := by omega
        have h0' : (es ++ [e]).length - C.toNat = 0 := by
          simp only [List.length_append, List.length_cons, List.length_nil]
          omega
        rw [h0, h0', List.drop_zero, List.drop_zero]
        norm_num

/-! ### Claim theorems for the log store -/

set_option maxRecDepth 4000 in
/-- C3: the ring-buffer store never holds more than its capacity `C`
entries; an append to a full buffer evicts exactly the oldest entry and
keeps the insertion order of the rest (new entry at the newest end); an
append to a non-full buffer evicts nothing; and appending probes 1–150 to
a fresh capacity-100 store leaves exactly probes 51–150, in order. -/
theorem C3_ring_buffer :
    (∀ (C : Int) (es : List PingLog), 1 ≤ C →
      (((NewMemoryStorage C).appendAll es).logs.length : Int) ≤ C) ∧
    (∀ (m : MemoryStorage) (e : PingLog), (m.logs.length : Int) = m.maxLogs →
      (m.AddPingLog e).logs = m.logs.tail ++ [{ e with ID := m.logCounter + 1 }]) ∧
    (∀ (m : MemoryStorage) (e : PingLog), (m.logs.length : Int) < m.maxLogs →
      (m.AddPingLog e).logs = m.logs ++ [{ e with ID := m.logCounter + 1 }]) ∧
    ((NewMemoryStorage 100).appendAll scenarioEntries).logs = scenarioExpected := by
  refine ⟨?_, ?_, ?_, ?_⟩
  · intro C es hC
    obtain ⟨-, -, hlogs⟩ := appendAll_closed_form C hC es
    rw [hlogs, List.length_drop, assignIDs_length]
    omega
  · intro m e h
    rw [addPingLog_of_full m e (le_of_eq h.symm)]
  · intro m e h
    rw [addPingLog_of_not_full m e (by omega)]
  · obtain ⟨-, -, hlogs⟩ := appendAll_closed_form 100 (by norm_num) scenarioEntries
    rw [hlogs]
    decide

/-- Witness for C3 at concrete inputs: a capacity-2 store stays within
bound after three appends, a full one-slot store evicts on append, and a
fresh store appends without eviction. -/
theorem C3_ring_buffer_witness :
    (((NewMemoryStorage 2).appendAll [blankLog, blankLog, blankLog]).logs.length : Int) ≤ 2 ∧
    (((NewMemoryStorage 1).AddPingLog blankLog).AddPingLog negLatLog).logs
      = [{ blankLog with ID := 1 }].tail ++ [{ negLatLog with ID := 2 }] ∧
    ((NewMemoryStorage 3).AddPingLog blankLog).logs = [] ++ [{ blankLog with ID := 1 }] :=
  ⟨C3_ring_buffer.1 2 [blankLog, blankLog, blankLog] (by norm_num),
   by
     have h2 := C3_ring_buffer.2.1 ((NewMemoryStorage 1).AddPingLog blankLog) negLatLog
     have hfst : (NewMemoryStorage 1).AddPingLog blankLog
         = { logs := [{ blankLog with ID := 1 }], maxLogs := 1, logCounter := 1 } := by
       decide
     rw [hfst] at h2 ⊢
     exact h2 (by decide),
   C3_ring_buffer.2.2.1 (NewMemoryStorage 3) blankLog (by decide)⟩

/-- C4: `GetFilteredLogs` equals the newest-first buffer filtered by the
conjunction of both optional filters, truncated to `limit` when positive;
hence every returned entry satisfies both filters, the result is ordered
newest-first (a sublist of the reversed buffer), a positive limit bounds
the result length, and a non-positive limit returns all matches. -/
theorem C4_get_filtered_logs (m : MemoryStorage) (siteID : String)
    (success : Option Bool) (limit : Int) :
    (m.GetFilteredLogs siteID success limit
      = if 0 < limit then
          (m.logs.reverse.filter (matchesFilters siteID success)).take limit.toNat
        else m.logs.reverse.filter (matchesFilters siteID success)) ∧
    (∀ log ∈ m.GetFilteredLogs siteID success limit,
      matchesFilters siteID success log = true) ∧
    (m.GetFilteredLogs siteID success limit).Sublist m.logs.reverse ∧
    (0 < limit → ((m.GetFilteredLogs siteID success limit).length : Int) ≤ limit) ∧
    (limit ≤ 0 → m.GetFilteredLogs siteID success limit
      = m.logs.reverse.filter (matchesFilters siteID success)) := by
  have hchar := getFilteredLogs_eq m siteID success limit
  refine ⟨hchar, ?_, ?_, ?_, ?_⟩
  · intro log hmem
    rw [hchar] at hmem
    split at hmem
    · exact List.of_mem_filter (List.mem_of_mem_take hmem)
    · exact List.of_mem_filter hmem
  · rw [hchar]
    have hfs : (m.logs.reverse.filter (matchesFilters siteID success)).Sublist
        m.logs.reverse := List.filter_sublist _
    split
    · exact List.Sublist.trans (List.take_sublist _ _) hfs
    · exact hfs
  · intro hpos
    rw [hchar, if_pos hpos]
    have := List.length_take_le limit.toNat
      (m.logs.reverse.filter (matchesFilters siteID success))
    omega
  · intro hnp
    rw [hchar, if_neg (by omega)]

/-- Witness for C4's conditional conjuncts at a concrete store: the length
bound with a positive limit, and unbounded query with limit 0. -/
theorem C4_get_filtered_logs_witness :
    ((((NewMemoryStorage 10).appendAll [blankLog, negLatLog]).GetFilteredLogs
        "s1" none 1).length : Int) ≤ 1 ∧
    ((NewMemoryStorage 10).appendAll [blankLog, negLatLog]).GetFilteredLogs "s1" (some true) 0
      = (((NewMemoryStorage 10).appendAll
          [blankLog, negLatLog]).logs.reverse.filter (matchesFilters "s1" (some true))) :=
  ⟨(C4_get_filtered_logs ((NewMemoryStorage 10).appendAll [blankLog, negLatLog])
      "s1" none 1).2.2.2.1 (by norm_num),
   (C4_get_filtered_logs ((NewMemoryStorage 10).appendAll [blankLog, negLatLog])
      "s1" (some true) 0).2.2.2.2 (by norm_num)⟩

/-- C5: appending any entry to any store state and querying with no
filters and a positive limit returns the appended entry first, with its
success flag, timestamp and latency intact (only the ID is rewritten). -/
theorem C5_roundtrip (m : MemoryStorage) (e : PingLog) (limit : Int)
    (hlim : 1 ≤ limit) :
    ∃ r rest, (m.AddPingLog e).GetFilteredLogs "" none limit = r :: rest ∧
      r.Success = e.Success ∧ r.Timestamp = e.Timestamp ∧ r.Latency = e.Latency := by
  obtain ⟨pre, hpre⟩ := addPingLog_logs m e
  have hchar := getFilteredLogs_eq (m.AddPingLog e) "" none limit
  rw [hpre] at hchar
  have hfilter : ∀ l : List PingLog, l.filter (matchesFilters "" none) = l := by
    intro l
    apply List.filter_eq_self.mpr
    intro a _
    exact matchesFilters_trivial a
  rw [List.reverse_append] at hchar
  simp only [List.reverse_singleton, List.singleton_append, hfilter] at hchar
  rw [if_pos (by omega)] at hchar
  have htk : limit.toNat = (limit.toNat - 1) + 1 := by omega
  rw [htk, List.take_succ_cons] at hchar
  exact ⟨_, _, hchar, rfl, rfl, rfl⟩

/-- Witness for C5: round trip through a concrete store with limit 3. -/
theorem C5_roundtrip_witness :
    ∃ r rest,
      (((NewMemoryStorage 5).appendAll [blankLog]).AddPingLog negLatLog).GetFilteredLogs
          "" none 3 = r :: rest ∧
        r.Success = negLatLog.Success ∧ r.Timestamp = negLatLog.Timestamp ∧
        r.Latency = negLatLog.Latency :=
  C5_roundtrip ((NewMemoryStorage 5).appendAll [blankLog]) negLatLog 3 (by norm_num)

/-! ### Lemmas and claim theorems for event derivation -/

theorem eventsLoop_cons (siteID : String) (log : PingLog) (rest : List PingLog)
    (lastStatus : String → Option Bool) (acc : List RecentEvent) :
    eventsLoop siteID (log :: rest) lastStatus acc
      = if log.SiteID ≠ siteID then eventsLoop siteID rest lastStatus acc
        else if (validateLogData log).isSome then eventsLoop siteID rest lastStatus acc
        else
          eventsLoop siteID rest
            (fun t => if t = log.Target then some log.Success else lastStatus t)
            (match lastStatus log.Target with
             | some prev =>
               if prev ≠ log.Success then acc ++ [mkRecentEvent log] else acc
             | none => acc) := rfl

theorem eventsLoop_eq (siteID : String) (logs : List PingLog) :
    ∀ (lastStatus : String → Option Bool) (acc : List RecentEvent),
      eventsLoop siteID logs lastStatus acc
        = acc ++ transitionEvents lastStatus (logs.filter (validFor siteID)) := by
  induction logs with
  | nil => intro lastStatus acc; simp [eventsLoop, transitionEvents]
  | cons log rest ih =>
    intro lastStatus acc
    rw [eventsLoop_cons]
    by_cases hsite : log.SiteID = siteID
    · rw [if_neg (by simp [hsite])]
      by_cases hv : validateLogData log = none
      · rw [if_neg (by simp [hv])]
        have hvf : validFor siteID log = true := by
          simp [validFor, hsite, hv]
        rw [ih]
        cases hprev : lastStatus log.Target with
        | none => simp [List.filter_cons, hvf, transitionEvents, hprev]
        | some prev =>
          by_cases hne : prev ≠ log.Success
          · simp [List.filter_cons, hvf, transitionEvents, hprev, hne]
          · simp [List.filter_cons, hvf, transitionEvents, hprev, hne]
      · have hs : (validateLogData log).isSome = true := by
          cases hval : validateLogData log
          · exact absurd hval hv
          · rfl
        rw [if_pos hs]
        have hvf : validFor siteID log = false := by
          cases hval : validateLogData log
          · exact absurd hval hv
          · simp [validFor, hval]
        rw [ih]
        simp [List.filter_cons, hvf]
    · rw [if_pos (by simp [hsite])]
      have hvf : validFor siteID log = false := by
        simp [validFor, hsite]
      rw [ih]
      simp [List.filter_cons, hvf]

/-- C9 (amended): `GetRecentEvents` equals the per-line transition scan of
the site's *valid* entries (entries with an empty site ID or a negative
latency are skipped entirely: they neither produce events nor update a
line's previous value), reversed to newest-first and truncated to the
limit; for a non-negative limit the result never exceeds the limit. -/
theorem C9_recent_events_amended (allLogs : List PingLog) (siteID : String) (limit : Int) :
    (GetRecentEvents allLogs siteID limit
      = (let evs := (transitionEvents (fun _ => none)
            (allLogs.filter (validFor siteID))).reverse
         if (evs.length : Int) > limit then evs.take limit.toNat else evs)) ∧
    (0 ≤ limit → ((GetRecentEvents allLogs siteID limit).length : Int) ≤ limit) := by
  have hchar : GetRecentEvents allLogs siteID limit
      = (let evs := (transitionEvents (fun _ => none)
            (allLogs.filter (validFor siteID))).reverse
         if (evs.length : Int) > limit then evs.take limit.toNat else evs) := by
    unfold GetRecentEvents
    by_cases hemp : allLogs.isEmpty
    · have : allLogs = [] := List.isEmpty_iff.mp hemp
      subst this
      simp [transitionEvents]
    · rw [if_neg hemp, eventsLoop_eq siteID allLogs (fun _ => none) []]
      simp
  refine ⟨hchar, ?_⟩
  intro hnn
  rw [hchar]
  simp only
  split
  · have := List.length_take_le limit.toNat
      (transitionEvents (fun _ => none) (allLogs.filter (validFor siteID))).reverse
    omega
  · omega

/-- C9 counterexample: with an invalid (negative-latency) entry between a
success and a failure on the same line, the code emits the event at the
later valid entry (timestamp 3), while the claim — transition relative to
the immediately preceding entry for the line — places it at the invalid
entry (timestamp 2). -/
theorem C9_recent_events_counterexample :
    GetRecentEvents cexLogs "s1" 10 ≠ specRecentEvents cexLogs "s1" 10 ∧
    (GetRecentEvents cexLogs "s1" 10).map RecentEvent.Timestamp = [3] ∧
    (specRecentEvents cexLogs "s1" 10).map RecentEvent.Timestamp = [2] := by
  decide

/-- Witness for C9's amended claim: the length bound applied to the
concrete counterexample history with limit 10. -/
theorem C9_recent_events_amended_witness :
    ((GetRecentEvents cexLogs "s1" 10).length : Int) ≤ 10 :=
  (C9_recent_events_amended cexLogs "s1" 10).2 (by norm_num)

/-! ### Lemmas and claim theorem for the circuit breaker -/

theorem call_open_within (cb : CircuitBreaker) (now : Int) (fnOk : Bool)
    (hst : cb.state = .StateOpen) (hwithin : now - cb.lastFailTime ≤ cb.resetTimeout) :
    Call cb now fnOk = (.circuitOpen, cb, false) := by
  have hng : ¬(now - cb.lastFailTime > cb.resetTimeout) := by omega
  simp [Call, canExecute, hst, hng]

theorem failCalls_lt (M rt t : Int) (_hM : 1 ≤ M) (n : ℕ) (hn : (n : Int) < M) :
    failCalls (NewCircuitBreaker M rt) t n
      = { maxFailures := M, resetTimeout := rt, state := .StateClosed,
          failures := (n : Int), lastFailTime := if n = 0 then 0 else t } := by
  induction n with
  | zero => simp [failCalls, NewCircuitBreaker]
  | succ k ih =>
    have hk : (k : Int) < M := by
      push_cast at hn
      omega
    rw [failCalls, ih hk]
    have hnotrip : ¬((k : Int) + 1 ≥ M) := by
      push_cast at hn
      omega
    simp [Call, canExecute, recordFailure, hnotrip]

theorem failCalls_open (M rt t : Int) (hM : 1 ≤ M) (hrt : 0 ≤ rt) (n : ℕ)
    (hn : (M : Int) ≤ n) :
    failCalls (NewCircuitBreaker M rt) t n
      = { maxFailures := M, resetTimeout := rt, state := .StateOpen,
          failures := M, lastFailTime := t } := by
  induction n with
  | zero =>
    exfalso
    simp at hn
    omega
  | succ k ih =>
    by_cases hk : (M : Int) ≤ k
    · rw [failCalls, ih hk]
      rw [call_open_within _ t false rfl (by show t - t ≤ rt; omega)]
    · have hklt : (k : Int) < M := by omega
      have hkM : (k : Int) + 1 = M := by
        push_cast at hn
        omega
      rw [failCalls, failCalls_lt M rt t hM k hklt]
      have htrip : (k : Int) + 1 ≥ M := by omega
      simp [Call, canExecute, recordFailure, htrip]
      omega

/-- C1: the circuit breaker state machine.  (a) In Closed, the failure that
brings the consecutive count to the threshold trips to Open; (b) below the
threshold it stays Closed and counts; (c) in Closed a success is passed
through with the counter reset; (d) in Open within the reset timeout every
call returns the distinct circuit-open outcome without invoking the probe
and leaves the breaker unchanged, so all subsequent such calls are
likewise rejected; (e) in Open once the reset timeout has elapsed since
the last recorded failure exactly one trial probe runs (via Half-Open): a
success returns to Closed with failure count 0, a failure returns to Open;
(f) the same resolution holds from Half-Open itself; (g) from a fresh
breaker, any sequence of failed calls stays Closed counting below the
threshold, is Open from the threshold on, and subsequent calls within the
timeout are rejected unchanged without invoking the probe. -/
theorem C1_circuit_breaker :
    (∀ (cb : CircuitBreaker) (now : Int), cb.state = .StateClosed →
      cb.failures + 1 ≥ cb.maxFailures →
      (Call cb now false).1 = .probe false ∧ (Call cb now false).2.2 = true ∧
      (Call cb now false).2.1.state = .StateOpen ∧
      (Call cb now false).2.1.failures = cb.failures + 1) ∧
    (∀ (cb : CircuitBreaker) (now : Int), cb.state = .StateClosed →
      cb.failures + 1 < cb.maxFailures →
      (Call cb now false).2.1.state = .StateClosed ∧
      (Call cb now false).2.1.failures = cb.failures + 1) ∧
    (∀ (cb : CircuitBreaker) (now : Int), cb.state = .StateClosed →
      Call cb now true = (.probe true, { cb with failures := 0 }, true)) ∧
    (∀ (cb : CircuitBreaker) (now : Int) (fnOk : Bool), cb.state = .StateOpen →
      now - cb.lastFailTime ≤ cb.resetTimeout →
      Call cb now fnOk = (.circuitOpen, cb, false)) ∧
    (∀ (cb : CircuitBreaker) (now : Int) (fnOk : Bool), cb.state = .StateOpen →
      now - cb.lastFailTime > cb.resetTimeout →
      (Call cb now fnOk).2.2 = true ∧ (Call cb now fnOk).1 = .probe fnOk ∧
      (fnOk = true → (Call cb now fnOk).2.1.state = .StateClosed ∧
        (Call cb now fnOk).2.1.failures = 0) ∧
      (fnOk = false → (Call cb now fnOk).2.1.state = .StateOpen)) ∧
    (∀ (cb : CircuitBreaker) (now : Int) (fnOk : Bool), cb.state = .StateHalfOpen →
      (Call cb now fnOk).2.2 = true ∧ (Call cb now fnOk).1 = .probe fnOk ∧
      (fnOk = true → (Call cb now fnOk).2.1.state = .StateClosed ∧
        (Call cb now fnOk).2.1.failures = 0) ∧
      (fnOk = false → (Call cb now fnOk).2.1.state = .StateOpen)) ∧
    (∀ (M rt t : Int) (n : ℕ), 1 ≤ M → 0 ≤ rt →
      ((n : Int) < M →
        (failCalls (NewCircuitBreaker M rt) t n).state = .StateClosed ∧
        (failCalls (NewCircuitBreaker M rt) t n).failures = n) ∧
      ((M : Int) ≤ n →
        (failCalls (NewCircuitBreaker M rt) t n).state = .StateOpen ∧
        ∀ (now : Int) (fnOk : Bool), now - t ≤ rt →
          Call (failCalls (NewCircuitBreaker M rt) t n) now fnOk
            = (.circuitOpen, failCalls (NewCircuitBreaker M rt) t n, false))) := by
  refine ⟨?_, ?_, ?_, ?_, ?_, ?_, ?_⟩
  · intro cb now hst htrip
    simp [Call, canExecute, recordFailure, hst, htrip]
  · intro cb now hst hbelow
    have : ¬(cb.failures + 1 ≥ cb.maxFailures) := by omega
    simp [Call, canExecute, recordFailure, hst, this]
  · intro cb now hst
    simp [Call, canExecute, recordSuccess, hst]
  · intro cb now fnOk hst hwithin
    have : ¬(now - cb.lastFailTime > cb.resetTimeout) := by omega
    simp [Call, canExecute, hst, this]
  · intro cb now fnOk hst helapsed
    cases fnOk <;> simp [Call, canExecute, recordSuccess, recordFailure, hst, helapsed]
  · intro cb now fnOk hst
    cases fnOk <;> simp [Call, canExecute, recordSuccess, recordFailure, hst]
  · intro M rt t n hM hrt
    constructor
    · intro hlt
      rw [failCalls_lt M rt t hM n hlt]
      exact ⟨rfl, rfl⟩
    · intro hge
      rw [failCalls_open M rt t hM hrt n hge]
      refine ⟨rfl, ?_⟩
      intro now fnOk hwithin
      exact call_open_within _ now fnOk rfl (by show now - t ≤ rt; omega)

/-- Witness for C1 at the default 3-failure/60-unit policy: a tripped
breaker rejects a call 10 units after the last failure without invoking
the probe; 3 failed calls from a fresh breaker leave it Open; 2 leave it
Closed with count 2; and a trial after the timeout closes the breaker. -/
theorem C1_circuit_breaker_witness :
    Call demoOpenCB 10 true = (.circuitOpen, demoOpenCB, false) ∧
    (failCalls (NewCircuitBreaker 3 60) 5 3).state = .StateOpen ∧
    ((failCalls (NewCircuitBreaker 3 60) 5 2).state = .StateClosed ∧
      (failCalls (NewCircuitBreaker 3 60) 5 2).failures = 2) ∧
    ((Call demoOpenCB 100 true).2.1.state = .StateClosed ∧
      (Call demoOpenCB 100 true).2.1.failures = 0) :=
  ⟨C1_circuit_breaker.2.2.2.1 demoOpenCB 10 true rfl
     (by show (10 : Int) - 0 ≤ 60; norm_num),
   ((C1_circuit_breaker.2.2.2.2.2.2 3 60 5 3 (by norm_num) (by norm_num)).2
     (by norm_num)).1,
   (C1_circuit_breaker.2.2.2.2.2.2 3 60 5 2 (by norm_num) (by norm_num)).1
     (by norm_num),
   (C1_circuit_breaker.2.2.2.2.1 demoOpenCB 100 true rfl
     (by show (100 : Int) - 0 > 60; norm_num)).2.2.1 rfl⟩

/-! ### Lemmas and claim theorems for live-status updates -/

theorem applyLineUpdate_primary_frame (st : SiteStatus) (result : PingResult)
    (h : result.LineType = "primary") :
    (applyLineUpdate st result).SecondaryOnline = st.SecondaryOnline ∧
    (applyLineUpdate st result).SecondaryLatency = st.SecondaryLatency ∧
    (applyLineUpdate st result).SecondaryError = st.SecondaryError ∧
    (applyLineUpdate st result).SiteID = st.SiteID := by
  simp only [applyLineUpdate, h]
  split <;> simp

theorem applyLineUpdate_secondary_frame (st : SiteStatus) (result : PingResult)
    (h : result.LineType = "secondary") :
    (applyLineUpdate st result).PrimaryOnline = st.PrimaryOnline ∧
    (applyLineUpdate st result).PrimaryLatency = st.PrimaryLatency ∧
    (applyLineUpdate st result).PrimaryError = st.PrimaryError ∧
    (applyLineUpdate st result).SiteID = st.SiteID := by
  simp only [applyLineUpdate, h]
  split <;> simp

theorem recomputeBothOnline_frame (sites : List Site) (st : SiteStatus) (id : String) :
    (recomputeBothOnline sites st id).PrimaryOnline = st.PrimaryOnline ∧
    (recomputeBothOnline sites st id).SecondaryOnline = st.SecondaryOnline ∧
    (recomputeBothOnline sites st id).PrimaryLatency = st.PrimaryLatency ∧
    (recomputeBothOnline sites st id).SecondaryLatency = st.SecondaryLatency ∧
    (recomputeBothOnline sites st id).PrimaryError = st.PrimaryError ∧
    (recomputeBothOnline sites st id).SecondaryError = st.SecondaryError ∧
    (recomputeBothOnline sites st id).SiteID = st.SiteID := by
  unfold recomputeBothOnline
  cases hf : findSite sites id with
  | none => simp
  | some site =>
    by_cases hd : site.IsDualLine = true
    · simp [hd]
    · simp [hd]

/-- The entry `UpdateSiteStatus` stores back for the processed site when
one exists. -/
theorem updateSiteStatus_some (sites : List Site) (status : String → Option SiteStatus)
    (result : PingResult) (st : SiteStatus) (h0 : status result.SiteID = some st) :
    UpdateSiteStatus sites status result
      = fun id => if id = result.SiteID then
          some { recomputeBothOnline sites (applyLineUpdate st result) result.SiteID
                  with LastCheck := result.Timestamp }
        else status id := by
  unfold UpdateSiteStatus
  rw [h0]

/-- Value of the updated map at the processed site. -/
theorem updateSiteStatus_apply_self (sites : List Site)
    (status : String → Option SiteStatus) (result : PingResult) (st : SiteStatus)
    (h0 : status result.SiteID = some st) :
    UpdateSiteStatus sites status result result.SiteID
      = some { recomputeBothOnline sites (applyLineUpdate st result) result.SiteID
              with LastCheck := result.Timestamp } := by
  rw [updateSiteStatus_some sites status result st h0]
  simp

/-- Value of the updated map at any other key. -/
theorem updateSiteStatus_apply_other (sites : List Site)
    (status : String → Option SiteStatus) (result : PingResult) (id : String)
    (hid : id ≠ result.SiteID) :
    UpdateSiteStatus sites status result id = status id := by
  cases h0 : status result.SiteID with
  | none =>
    unfold UpdateSiteStatus
    rw [h0]
  | some st =>
    rw [updateSiteStatus_some sites status result st h0]
    simp [hid]

/-- C2: after an update for a probe result whose site is in the site list,
the stored entry's combined flag equals the conjunction of both line flags
for a dual-line site and the primary flag alone for a single-line site. -/
theorem C2_both_online (sites : List Site) (status : String → Option SiteStatus)
    (result : PingResult) (site : Site) (st' : SiteStatus)
    (hsite : findSite sites result.SiteID = some site)
    (hst : UpdateSiteStatus sites status result result.SiteID = some st') :
    (site.IsDualLine = true →
      st'.BothOnline = (st'.PrimaryOnline && st'.SecondaryOnline)) ∧
    (site.IsDualLine = false → st'.BothOnline = st'.PrimaryOnline) := by
  cases h0 : status result.SiteID with
  | none =>
    unfold UpdateSiteStatus at hst
    rw [h0] at hst
    simp [h0] at hst
  | some st =>
    rw [updateSiteStatus_apply_self sites status result st h0] at hst
    obtain rfl := (Option.some.inj hst).symm
    cases hdual : site.IsDualLine <;>
      simp [recomputeBothOnline, hsite, hdual]

/-- Witness for C2: the dual-line demo site after a successful primary
probe keeps `BothOnline = Primary && Secondary`. -/
theorem C2_both_online_witness :
    ∃ st', UpdateSiteStatus [demoSite1, demoSite2] demoStatusMap demoResult "s1" = some st' ∧
      st'.BothOnline = (st'.PrimaryOnline && st'.SecondaryOnline) := by
  have hsite : findSite [demoSite1, demoSite2] demoResult.SiteID = some demoSite1 := by
    decide
  have hst : UpdateSiteStatus [demoSite1, demoSite2] demoStatusMap demoResult "s1"
      = some { recomputeBothOnline [demoSite1, demoSite2]
                (applyLineUpdate (demoStatus "s1") demoResult) "s1"
              with LastCheck := demoResult.Timestamp } :=
    updateSiteStatus_apply_self _ _ _ _ (by decide)
  refine ⟨_, hst, ?_⟩
  exact (C2_both_online _ _ _ demoSite1 _ hsite hst).1 (by decide)

/-- C10: the frame of `UpdateSiteStatus`.  A result whose site has no
live-status entry changes nothing (and creates no entry); entries of other
sites are untouched; a primary-line result leaves the secondary line's
flag, latency and error (and the entry's site ID) unchanged, and
symmetrically for a secondary-line result. -/
theorem C10_update_frame (sites : List Site) (status : String → Option SiteStatus)
    (result : PingResult) :
    (status result.SiteID = none → UpdateSiteStatus sites status result = status) ∧
    (∀ id, id ≠ result.SiteID → UpdateSiteStatus sites status result id = status id) ∧
    (∀ st st', result.LineType = "primary" → status result.SiteID = some st →
      UpdateSiteStatus sites status result result.SiteID = some st' →
      st'.SecondaryOnline = st.SecondaryOnline ∧
      st'.SecondaryLatency = st.SecondaryLatency ∧
      st'.SecondaryError = st.SecondaryError ∧ st'.SiteID = st.SiteID) ∧
    (∀ st st', result.LineType = "secondary" → status result.SiteID = some st →
      UpdateSiteStatus sites status result result.SiteID = some st' →
      st'.PrimaryOnline = st.PrimaryOnline ∧
      st'.PrimaryLatency = st.PrimaryLatency ∧
      st'.PrimaryError = st.PrimaryError ∧ st'.SiteID = st.SiteID) := by
  refine ⟨?_, ?_, ?_, ?_⟩
  · intro h
    unfold UpdateSiteStatus
    rw [h]
  · intro id hid
    exact updateSiteStatus_apply_other sites status result id hid
  · intro st st' hlt h0 hupd
    rw [updateSiteStatus_apply_self sites status result st h0] at hupd
    obtain rfl := (Option.some.inj hupd).symm
    obtain ⟨r1, r2, r3, r4, r5, r6, r7⟩ :=
      recomputeBothOnline_frame sites (applyLineUpdate st result) result.SiteID
    obtain ⟨a1, a2, a3, a4⟩ := applyLineUpdate_primary_frame st result hlt
    exact ⟨by simp [r2, a1], by simp [r4, a2], by simp [r6, a3], by simp [r7, a4]⟩
  · intro st st' hlt h0 hupd
    rw [updateSiteStatus_apply_self sites status result st h0] at hupd
    obtain rfl := (Option.some.inj hupd).symm
    obtain ⟨r1, r2, r3, r4, r5, r6, r7⟩ :=
      recomputeBothOnline_frame sites (applyLineUpdate st result) result.SiteID
    obtain ⟨a1, a2, a3, a4⟩ := applyLineUpdate_secondary_frame st result hlt
    exact ⟨by simp [r1, a1], by simp [r3, a2], by simp [r5, a3], by simp [r7, a4]⟩

/-- Witness for C10: a result for an unknown site leaves the demo status
map unchanged, other sites' entries are untouched by a result for `s1`,
and a primary-line result leaves `s1`'s secondary fields unchanged. -/
theorem C10_update_frame_witness :
    UpdateSiteStatus [demoSite1, demoSite2] demoStatusMap
        { demoResult with SiteID := "nosuch" } = demoStatusMap ∧
    UpdateSiteStatus [demoSite1, demoSite2] demoStatusMap demoResult "s2"
      = demoStatusMap "s2" ∧
    ∃ st', UpdateSiteStatus [demoSite1, demoSite2] demoStatusMap demoResult "s1"
        = some st' ∧ st'.SecondaryOnline = (demoStatus "s1").SecondaryOnline :=
  ⟨(C10_update_frame [demoSite1, demoSite2] demoStatusMap
      { demoResult with SiteID := "nosuch" }).1 (by decide),
   (C10_update_frame [demoSite1, demoSite2] demoStatusMap demoResult).2.1 "s2"
     (by decide),
   by
     have hst := updateSiteStatus_apply_self [demoSite1, demoSite2] demoStatusMap
       demoResult (demoStatus "s1") (by decide)
     refine ⟨_, hst, ?_⟩
     exact ((C10_update_frame [demoSite1, demoSite2] demoStatusMap demoResult).2.2.1
       (demoStatus "s1") _ rfl (by decide) hst).1⟩

/-! ### Claim theorems for the statistics engine and pipeline -/

/-- C6: a timeframe aggregate with zero total checks reports uptime 0 (the
guard returns before the division), and one with zero successful latency
samples reports mean latency 0; both functions are total on empty input. -/
theorem C6_empty_timeframe (ts : TimeframeStats) :
    (ts.TotalChecks = 0 → ts.GetUptimePercentage = 0) ∧
    (ts.Latencies = [] → ts.GetMeanLatency = 0) := by
  constructor
  · intro h
    simp [TimeframeStats.GetUptimePercentage, h]
  · intro h
    simp [TimeframeStats.GetMeanLatency, h]

/-- Witness for C6: the fresh aggregate reports 0 for both metrics. -/
theorem C6_empty_timeframe_witness :
    NewTimeframeStats.GetUptimePercentage = 0 ∧
    NewTimeframeStats.GetMeanLatency = 0 :=
  ⟨(C6_empty_timeframe NewTimeframeStats).1 rfl,
   (C6_empty_timeframe NewTimeframeStats).2 rfl⟩

/-- C8: when the log-store append fails, `HandlePingResult` still
increments the total-checks counter, updates the live-status entry exactly
as `UpdateSiteStatus` prescribes, keeps the old storage state, and the
counter and live-status outcomes are identical to those under any other
append behaviour (in particular a succeeding one). -/
theorem C8_persistence_failure {σ : Type} (add : σ → PingLog → Except String σ)
    (sites : List Site) (st : PipelineState σ) (result : PingResult) (e : String)
    (herr : add st.Storage (buildPingLog result (siteNameFor sites result.SiteID))
      = .error e) :
    (HandlePingResult add sites st result).TotalChecks = st.TotalChecks + 1 ∧
    (HandlePingResult add sites st result).SiteStatus
      = UpdateSiteStatus sites st.SiteStatus result ∧
    (HandlePingResult add sites st result).Storage = st.Storage ∧
    (∀ (add2 : σ → PingLog → Except String σ),
      (HandlePingResult add2 sites st result).TotalChecks
        = (HandlePingResult add sites st result).TotalChecks ∧
      (HandlePingResult add2 sites st result).SiteStatus
        = (HandlePingResult add sites st result).SiteStatus) := by
  refine ⟨rfl, rfl, ?_, fun add2 => ⟨rfl, rfl⟩⟩
  simp [HandlePingResult, AddPingLogToStorage, herr]

/-- Witness for C8: the always-failing backend still yields the counter
increment and the live-status update on the demo state. -/
theorem C8_persistence_failure_witness :
    (HandlePingResult failingAdd [demoSite1, demoSite2] demoPipeline
        demoResult).TotalChecks = demoPipeline.TotalChecks + 1 ∧
    (HandlePingResult failingAdd [demoSite1, demoSite2] demoPipeline
        demoResult).SiteStatus
      = UpdateSiteStatus [demoSite1, demoSite2] demoPipeline.SiteStatus demoResult :=
  have h := C8_persistence_failure failingAdd [demoSite1, demoSite2] demoPipeline
    demoResult "disk full" rfl
  ⟨h.1, h.2.1⟩

theorem addSuccessLatency_counts (ts : TimeframeStats) (log : PingLog) :
    (addSuccessLatency ts log).TotalChecks = ts.TotalChecks ∧
    (addSuccessLatency ts log).SuccessChecks
      = (if log.Success then ts.SuccessChecks + 1 else ts.SuccessChecks) := by
  unfold addSuccessLatency
  cases hs : log.Success <;> cases hl : log.Latency <;> cases hj : log.Jitter <;>
    simp [apply_ite TimeframeStats.TotalChecks, apply_ite TimeframeStats.SuccessChecks]

theorem addProviderStats_counts (ts : TimeframeStats) (log : PingLog) :
    (addProviderStats ts log).TotalChecks = ts.TotalChecks ∧
    (addProviderStats ts log).SuccessChecks = ts.SuccessChecks := by
  unfold addProviderStats
  by_cases ht1 : log.Target = "primary" <;> by_cases ht2 : log.Target = "secondary" <;>
    cases hs : log.Success <;> cases hpl : log.PacketLoss <;>
      cases hmin : log.MinLatency <;> cases hmax : log.MaxLatency <;>
        cases hj : log.Jitter <;> simp [ht1, ht2, hs]

theorem addLog_counts (ts : TimeframeStats) (log : PingLog) :
    (ts.AddLog log).TotalChecks = ts.TotalChecks + 1 ∧
    (ts.AddLog log).SuccessChecks
      = (if log.Success then ts.SuccessChecks + 1 else ts.SuccessChecks) := by
  simp only [TimeframeStats.AddLog]
  constructor
  · rw [(addProviderStats_counts _ _).1, (addSuccessLatency_counts _ _).1]
    cases log.PacketLoss <;> simp
  · rw [(addProviderStats_counts _ _).2, (addSuccessLatency_counts _ _).2]
    cases log.PacketLoss <;> cases log.Success <;> simp

/-- C7 (evaluating the code at the failing input): a successful entry with
latency −5 for site `s1` is rejected by validation, so the per-site
analysis loop folds it into no `TimeframeStats` aggregate at all; a
successful entry lacking latency is still counted (one total, one
successful check); but `CalculateSiteStatistics` also computes the
per-line mean via `GetProviderMeanLatency` over the raw, unvalidated log
list, where the same invalid entry IS included: the primary mean latency
comes out −5 instead of 0, contradicting the claimed exclusion of
negative latencies from every aggregate. -/
theorem C7_negative_latency_in_provider_mean :
    statsForTimeframe "s1" none [negLatLog] = NewTimeframeStats ∧
    (statsForTimeframe "s1" none [blankLog]).TotalChecks = 1 ∧
    (statsForTimeframe "s1" none [blankLog]).SuccessChecks = 1 ∧
    (statsForTimeframe "s1" none [negLatLog]).GetProviderMeanLatency
        "primary" [negLatLog] "s1" = -5 ∧ (-5 : ℚ) ≠ 0 := by
  have hsidn : negLatLog.SiteID = "s1" := rfl
  have hvaln : validateLogData negLatLog = some "negative latency" := by decide
  have hsidb : blankLog.SiteID = "s1" := rfl
  have hvalb : validateLogData blankLog = none := by decide
  refine ⟨?_, ?_, ?_, ?_, by norm_num⟩
  · unfold statsForTimeframe
    rw [List.foldl_cons, List.foldl_nil]
    simp only []
    rw [if_neg (by simp [hsidn]), if_pos (by rw [hvaln]; rfl)]
  · unfold statsForTimeframe
    rw [List.foldl_cons, List.foldl_nil]
    simp only []
    rw [if_neg (by simp [hsidb]), if_neg (by rw [hvalb]; simp)]
    rw [(addLog_counts _ _).1]
    norm_num [show NewTimeframeStats.TotalChecks = 0 from rfl]
  · unfold statsForTimeframe
    rw [List.foldl_cons, List.foldl_nil]
    simp only []
    rw [if_neg (by simp [hsidb]), if_neg (by rw [hvalb]; simp)]
    rw [(addLog_counts _ _).2]
    norm_num [show NewTimeframeStats.SuccessChecks = 0 from rfl,
      show blankLog.Success = true from rfl]
  · have hfil : [negLatLog].filter
        (fun log => log.SiteID == "s1" && log.Success && log.Latency.isSome
          && log.Target == "primary") = [negLatLog] := by decide
    have hlat : negLatLog.Latency = some (-5) := rfl
    simp only [TimeframeStats.GetProviderMeanLatency]
    rw [hfil]
    simp [hlat, roundToDecimalPlaces, mathRound]
    norm_num

end Sitewatch
